import Mathlib

/-!
Shallow embedding of the drawingboard_distributed repository's
state-synchronization core.

Server side (src/server/index.js): the centralized state is
`currentOperations` (an array of drawing operations), `activeUsers`
(a JS Map from persistent user id to a user object) and
`connectionIdToPersistentUser` (a JS Map from ephemeral connection id to
persistent user id).  The `ws.on` handlers for connection, message and
close are embedded as pure step functions producing the new state and
the list of (recipient connection id, message) sends.

Client side (src/hooks/useDistributedSystem.ts, WebSocket variant):
`handleWebSocketMessage` is embedded as a pure transition on the client
state, and `initiateReconnect` with its constants `RECONNECT_DELAY` and
`MAX_RECONNECT_ATTEMPTS` as a transition on the reconnection counters.
-/

namespace DrawingBoard

/-- A cursor position, as in the Point type of src/types/index.ts. -/
structure Point where
  x : Int
  y : Int
deriving DecidableEq

/-- A drawing operation as the server sees it: the server treats the
object opaquely except for pushing it onto `currentOperations`; the
wire contract gives it a stable `id`.  The rest of the object (tool,
color, points, timestamp) is abstracted as an opaque payload string. -/
structure Operation where
  id : String
  payload : String
deriving DecidableEq

/-- The user object the server stores in `activeUsers`
(src/server/index.js lines 103-111): id, name, color, isActive,
lastSeen, connectionId, plus the cursor field added by mutation in the
cursor_move handler. -/
structure SUser where
  id : String
  name : String
  color : String
  isActive : Bool
  lastSeen : Nat
  cursor : Option Point
  connectionId : String
deriving DecidableEq

/-- One open WebSocket connection as tracked by wss.clients: its
ephemeral `_connectionId` and the `_persistentUserId` attached during
the client_connect_info handshake (none before handshake). -/
structure Conn where
  connId : String
  persistentUserId : Option String
deriving DecidableEq

/-- Client-to-server messages, following the switch on data.type in
ws.on message (src/server/index.js lines 92-158). -/
inductive ClientMsg where
  | clientConnectInfo (persistentUserId userName userColor : String)
  | userLeave (userId : String)
  | drawingOperation (userId : String) (operation : Operation)
  | cursorMove (userId : String) (cursor : Point)
  | heartbeat (userId : String)
  | clearCanvas
deriving DecidableEq

/-- Server-to-client messages, as produced by ws.send and
broadcastToAll in src/server/index.js. -/
inductive ServerMsg where
  | connection (clientId : String)
  | stateSync (users : List SUser) (operations : List Operation)
  | userJoin (user : SUser)
  | userLeave (userId : String)
  | activeUsersUpdate (users : List String)
  | drawingOperation (operation : Operation)
  | cursorMove (userId : String) (cursor : Point)
  | clearCanvas
deriving DecidableEq

/-- JS Map.set: replace the value at an existing key in place,
otherwise append the new (key, value) pair (insertion order kept). -/
def setAssoc {β : Type} : List (String × β) → String → β → List (String × β)
  | [], k, v => [(k, v)]
  | (k0, v0) :: rest, k, v =>
      if k0 = k then (k, v) :: rest else (k0, v0) :: setAssoc rest k v

/-- JS Map.get: the value at a key, if present. -/
def getAssoc {β : Type} : List (String × β) → String → Option β
  | [], _ => none
  | (k0, v0) :: rest, k => if k0 = k then some v0 else getAssoc rest k

/-- JS Map.delete: remove the entry at a key. -/
def delAssoc {β : Type} : List (String × β) → String → List (String × β)
  | [], _ => []
  | (k0, v0) :: rest, k =>
      if k0 = k then delAssoc rest k else (k0, v0) :: delAssoc rest k

/-- In-place mutation of the object stored at a key, as done by
activeUsers.get(id).cursor = ... in the cursor_move and heartbeat
handlers: the entry keeps its position, only its value changes. -/
def updAssoc {β : Type} : List (String × β) → String → (β → β) → List (String × β)
  | [], _, _ => []
  | (k0, v0) :: rest, k, f =>
      if k0 = k then (k0, f v0) :: updAssoc rest k f
      else (k0, v0) :: updAssoc rest k f

/-- The centralized server state (src/server/index.js lines 26-30),
together with the set of open connections tracked by wss.clients. -/
structure ServerState where
  currentOperations : List Operation
  activeUsers : List (String × SUser)
  connectionIdToPersistentUser : List (String × String)
  connections : List Conn
deriving DecidableEq

/-- State at server start: empty log, empty maps, no clients. -/
def initialServerState : ServerState :=
  { currentOperations := []
    activeUsers := []
    connectionIdToPersistentUser := []
    connections := [] }

/-- broadcastToAll (src/server/index.js lines 47-58): send the message
to every open client, with no filtering on handshake state. -/
def broadcastToAll (st : ServerState) (m : ServerMsg) :
    List (String × ServerMsg) :=
  st.connections.map (fun c => (c.connId, m))

/-- Array.from(activeUsers.values()). -/
def activeUserValues (st : ServerState) : List SUser :=
  st.activeUsers.map Prod.snd

/-- Array.from(activeUsers.values()).map(u => u.id). -/
def activeUserIds (st : ServerState) : List String :=
  (activeUserValues st).map SUser.id

/-- wss.on connection (src/server/index.js lines 60-80): register the
new client and immediately send it its ephemeral connection id. -/
def handleConnection (st : ServerState) (connId : String) :
    ServerState × List (String × ServerMsg) :=
  ({ st with
      connections := st.connections ++ [{ connId := connId, persistentUserId := none }] },
   [(connId, ServerMsg.connection connId)])

/-- ws.on message (src/server/index.js lines 86-162): the switch over
data.type.  `sender` is the ephemeral connection id of the sending
socket and `now` stands for Date.now(). -/
def handleMessage (st : ServerState) (sender : String) (now : Nat) :
    ClientMsg → ServerState × List (String × ServerMsg)
  | ClientMsg.clientConnectInfo pid nm col =>
      let user : SUser :=
        { id := pid, name := nm, color := col, isActive := true,
          lastSeen := now, cursor := none, connectionId := sender }
      let st' : ServerState :=
        { st with
          connections := st.connections.map
            (fun c => if c.connId = sender then { c with persistentUserId := some pid } else c),
          connectionIdToPersistentUser :=
            setAssoc st.connectionIdToPersistentUser sender pid,
          activeUsers := setAssoc st.activeUsers pid user }
      (st',
       (sender, ServerMsg.stateSync (activeUserValues st') st'.currentOperations)
         :: broadcastToAll st' (ServerMsg.userJoin user)
         ++ broadcastToAll st' (ServerMsg.activeUsersUpdate (activeUserIds st')))
  | ClientMsg.userLeave uid =>
      let st' := { st with activeUsers := delAssoc st.activeUsers uid }
      (st',
       broadcastToAll st' (ServerMsg.userLeave uid)
         ++ broadcastToAll st' (ServerMsg.activeUsersUpdate (activeUserIds st')))
  | ClientMsg.drawingOperation _ operation =>
      let st' := { st with currentOperations := st.currentOperations ++ [operation] }
      (st', broadcastToAll st' (ServerMsg.drawingOperation operation))
  | ClientMsg.cursorMove uid cur =>
      let newUsers :=
        if (getAssoc st.activeUsers uid).isSome then
          updAssoc st.activeUsers uid
            (fun u => { u with cursor := some cur, lastSeen := now })
        else st.activeUsers
      ({ st with activeUsers := newUsers },
       broadcastToAll { st with activeUsers := newUsers }
         (ServerMsg.cursorMove uid cur))
  | ClientMsg.heartbeat uid =>
      let newUsers :=
        if (getAssoc st.activeUsers uid).isSome then
          updAssoc st.activeUsers uid
            (fun u => { u with lastSeen := now, isActive := true })
        else st.activeUsers
      ({ st with activeUsers := newUsers }, [])
  | ClientMsg.clearCanvas =>
      let st' := { st with currentOperations := [] }
      (st', broadcastToAll st' (ServerMsg.clearCanvas))

/-- ws.on close (src/server/index.js lines 164-182): the socket leaves
wss.clients, then if its connection id was bound to a persistent user,
that user is deleted from activeUsers and a user_leave plus an
active_users_update are broadcast to the remaining clients. -/
def handleClose (st : ServerState) (connId : String) :
    ServerState × List (String × ServerMsg) :=
  let stc := { st with connections := st.connections.filter (fun c => c.connId ≠ connId) }
  match getAssoc stc.connectionIdToPersistentUser connId with
  | some uid =>
      let st' :=
        { stc with
          activeUsers := delAssoc stc.activeUsers uid,
          connectionIdToPersistentUser :=
            delAssoc stc.connectionIdToPersistentUser connId }
      (st',
       broadcastToAll st' (ServerMsg.userLeave uid)
         ++ broadcastToAll st' (ServerMsg.activeUsersUpdate (activeUserIds st')))
  | none => (stc, [])

/-- One externally visible server event: a socket connecting, a message
arriving on a socket, or a socket closing. -/
inductive Event where
  | connect (connId : String)
  | message (connId : String) (now : Nat) (msg : ClientMsg)
  | close (connId : String)
deriving DecidableEq

/-- The state transition of one event (dropping the sends). -/
def stepEvent (st : ServerState) : Event → ServerState
  | Event.connect c => (handleConnection st c).1
  | Event.message c n m => (handleMessage st c n m).1
  | Event.close c => (handleClose st c).1

/-- Serial processing of a sequence of events, as done by the single
authoritative server process. -/
def runEvents (st : ServerState) : List Event → ServerState
  | [] => st
  | e :: rest => runEvents (stepEvent st e) rest

/-- Whether an event is a clear_canvas message. -/
def isClearEvent : Event → Bool
  | Event.message _ _ ClientMsg.clearCanvas => true
  | _ => false

/-- A trace containing no clear_canvas message. -/
def noClear (evs : List Event) : Bool :=
  evs.all (fun e => !(isClearEvent e))

/-- The operation appended by an event, if any. -/
def eventOps : Event → List Operation
  | Event.message _ _ (ClientMsg.drawingOperation _ o) => [o]
  | _ => []

/-- The drawing operations submitted in a trace, in arrival order. -/
def drawOpsOf (evs : List Event) : List Operation :=
  (evs.map eventOps).flatten

/-- A user object as the client keeps it.  JS object spreads in the
client handlers can build partial user objects (e.g. the cursor_move
case spreads a possibly-undefined prev.users entry), so every field is
optional, mirroring a plain JS object. -/
structure JsUser where
  id : Option String
  name : Option String
  color : Option String
  isActive : Option Bool
  lastSeen : Option Nat
  cursor : Option Point
  connectionId : Option String
deriving DecidableEq

/-- The empty JS object, produced by spreading undefined. -/
def emptyJsUser : JsUser :=
  { id := none, name := none, color := none, isActive := none,
    lastSeen := none, cursor := none, connectionId := none }

/-- A full user object as received from the server. -/
def jsUserOfServer (u : SUser) : JsUser :=
  { id := some u.id, name := some u.name, color := some u.color,
    isActive := some u.isActive, lastSeen := some u.lastSeen,
    cursor := u.cursor, connectionId := some u.connectionId }

/-- The JS object key used when indexing by user.id: an undefined id
indexes the object at the string key "undefined". -/
def jsKeyOf (u : JsUser) : String :=
  u.id.getD "undefined"

/-- The client-side state of useDistributedSystem: the SystemState
record (users, operations, currentVersion, lastUpdate) plus the
server-assigned nodeId and the connectedNodes list. -/
structure ClientState where
  nodeId : String
  users : List (String × JsUser)
  operations : List Operation
  currentVersion : Nat
  lastUpdate : Nat
  connectedNodes : List String
deriving DecidableEq

/-- handleWebSocketMessage of the WebSocket-backed
useDistributedSystem hook: the switch over data.type on the client.
`now` stands for Date.now().  Notes on fidelity:
- drawing_operation appends the operation and bumps currentVersion;
- clear_canvas empties operations and bumps currentVersion;
- state_sync rebuilds the users map from the server list, replaces the
  operations, and sets currentVersion to syncedState.currentVersion
  or 0 — the server's state_sync payload carries no version field, so
  this always assigns 0;
- cursor_move spreads the (possibly undefined) existing entry and sets
  cursor and lastSeen;
- active_users_update stores the list in connectedNodes and rewrites
  each user object's isActive flag, indexing by the object's id field.
The connection case also triggers sending client_connect_info; only
the state change is modelled here. -/
def handleWebSocketMessage (st : ClientState) (now : Nat) :
    ServerMsg → ClientState
  | ServerMsg.connection cid => { st with nodeId := cid }
  | ServerMsg.userJoin u =>
      { st with
        users := setAssoc st.users u.id { jsUserOfServer u with lastSeen := some now },
        lastUpdate := now }
  | ServerMsg.userLeave uid =>
      { st with users := delAssoc st.users uid, lastUpdate := now }
  | ServerMsg.drawingOperation o =>
      { st with
        operations := st.operations ++ [o],
        currentVersion := st.currentVersion + 1,
        lastUpdate := now }
  | ServerMsg.stateSync us ops =>
      { st with
        users := us.foldl (fun acc u => setAssoc acc u.id (jsUserOfServer u)) [],
        operations := ops,
        currentVersion := 0,
        lastUpdate := now }
  | ServerMsg.cursorMove uid cur =>
      let base := (getAssoc st.users uid).getD emptyJsUser
      { st with
        users := setAssoc st.users uid { base with cursor := some cur, lastSeen := some now } }
  | ServerMsg.activeUsersUpdate ids =>
      { st with
        connectedNodes := ids,
        users := st.users.foldl
          (fun acc p =>
            setAssoc acc (jsKeyOf p.2)
              { p.2 with
                isActive := some (match p.2.id with
                  | some s => ids.contains s
                  | none => false) })
          st.users }
  | ServerMsg.clearCanvas =>
      { st with
        operations := [],
        currentVersion := st.currentVersion + 1,
        lastUpdate := now }

/-- RECONNECT_DELAY constant of the client hook (milliseconds). -/
def RECONNECT_DELAY : Nat := 3000

/-- MAX_RECONNECT_ATTEMPTS constant of the client hook. -/
def MAX_RECONNECT_ATTEMPTS : Nat := 3

/-- initiateReconnect of the client hook, as a function of the
unmounting flag and the reconnectAttemptsRef counter.  Result:
(new counter value,
 delay of the retry timer scheduled by this call if any,
 whether this call surfaced the terminal disconnected status). -/
def initiateReconnect (unmounting : Bool) (attempts : Nat) :
    Nat × Option Nat × Bool :=
  if unmounting then (attempts, none, false)
  else if attempts < MAX_RECONNECT_ATTEMPTS then
    (attempts + 1, some RECONNECT_DELAY, false)
  else (attempts, none, true)

/-- The reconnectAttemptsRef counter after k consecutive failed
connection attempts (each failure invokes initiateReconnect), starting
from 0 as set on a successful connection. -/
def reconnectAttemptsAfter : Nat → Nat
  | 0 => 0
  | k + 1 => (initiateReconnect false (reconnectAttemptsAfter k)).1

/-! ### Association list lemmas -/

theorem getAssoc_setAssoc_self {β : Type} (l : List (String × β)) (k : String) (v : β) :
    getAssoc (setAssoc l k v) k = some v := by
  induction l with
  | nil => simp [setAssoc, getAssoc]
  | cons hd tl ih =>
      by_cases h : hd.1 = k
      · simp [setAssoc, getAssoc, h]
      · simp [setAssoc, getAssoc, h, ih]

theorem getAssoc_setAssoc_ne {β : Type} (l : List (String × β)) (k q : String) (v : β)
    (h : q ≠ k) : getAssoc (setAssoc l k v) q = getAssoc l q := by
  have h' : ¬(k = q) := fun hh => h hh.symm
  induction l with
  | nil => simp [setAssoc, getAssoc, h']
  | cons hd tl ih =>
      by_cases hk : hd.1 = k
      · simp [setAssoc, getAssoc, hk, h']
      · by_cases hq : hd.1 = q
        · simp [setAssoc, getAssoc, hk, hq, h', h]
        · simp [setAssoc, getAssoc, hk, hq, ih]

theorem getAssoc_delAssoc_self {β : Type} (l : List (String × β)) (k : String) :
    getAssoc (delAssoc l k) k = none := by
  induction l with
  | nil => simp [delAssoc, getAssoc]
  | cons hd tl ih =>
      by_cases h : hd.1 = k
      · simp [delAssoc, h, ih]
      · simp [delAssoc, getAssoc, h, ih]

theorem getAssoc_updAssoc_self {β : Type} (l : List (String × β)) (k : String) (f : β → β) :
    getAssoc (updAssoc l k f) k = (getAssoc l k).map f := by
  induction l with
  | nil => simp [updAssoc, getAssoc]
  | cons hd tl ih =>
      by_cases h : hd.1 = k
      · simp [updAssoc, getAssoc, h]
      · simp [updAssoc, getAssoc, h, ih]

theorem getAssoc_updAssoc_ne {β : Type} (l : List (String × β)) (k q : String) (f : β → β)
    (h : q ≠ k) : getAssoc (updAssoc l k f) q = getAssoc l q := by
  have h' : ¬(k = q) := fun hh => h hh.symm
  induction l with
  | nil => simp [updAssoc, getAssoc]
  | cons hd tl ih =>
      by_cases hk : hd.1 = k
      · simp [updAssoc, getAssoc, hk, h', ih]
      · by_cases hq : hd.1 = q
        · simp [updAssoc, getAssoc, hk, hq, h]
        · simp [updAssoc, getAssoc, hk, hq, ih]

theorem mem_keys_setAssoc {β : Type} (l : List (String × β)) (k a : String) (v : β)
    (h : a ∈ (setAssoc l k v).map Prod.fst) : a ∈ l.map Prod.fst ∨ a = k := by
  induction l with
  | nil => simpa [setAssoc] using h
  | cons hd tl ih =>
      by_cases hk : hd.1 = k
      · simp only [setAssoc, hk, if_true, List.map_cons, List.mem_cons] at h
        rcases h with h | h
        · exact Or.inr h
        · exact Or.inl (by simp [h])
      · simp only [setAssoc, hk, if_false, List.map_cons, List.mem_cons] at h
        rcases h with h | h
        · exact Or.inl (by simp [h])
        · rcases ih h with h' | h'
          · exact Or.inl (by simp [h'])
          · exact Or.inr h'

theorem nodup_keys_setAssoc {β : Type} (l : List (String × β)) (k : String) (v : β)
    (h : (l.map Prod.fst).Nodup) : ((setAssoc l k v).map Prod.fst).Nodup := by
  induction l with
  | nil => simp [setAssoc]
  | cons hd tl ih =>
      simp only [List.map_cons, List.nodup_cons] at h
      by_cases hk : hd.1 = k
      · simp only [setAssoc, hk, if_true, List.map_cons, List.nodup_cons]
        exact ⟨by simpa [hk] using h.1, h.2⟩
      · simp only [setAssoc, hk, if_false, List.map_cons, List.nodup_cons]
        refine ⟨fun hmem => ?_, ih h.2⟩
        rcases mem_keys_setAssoc tl k hd.1 v hmem with h' | h'
        · exact h.1 h'
        · exact hk h'

theorem keys_delAssoc_sublist {β : Type} (l : List (String × β)) (k : String) :
    ((delAssoc l k).map Prod.fst).Sublist (l.map Prod.fst) := by
  induction l with
  | nil => simp [delAssoc]
  | cons hd tl ih =>
      by_cases h : hd.1 = k
      · simp only [delAssoc, h, if_true, List.map_cons]
        exact ih.cons _
      · simp only [delAssoc, h, if_false, List.map_cons]
        exact ih.cons₂ _

theorem nodup_keys_delAssoc {β : Type} (l : List (String × β)) (k : String)
    (h : (l.map Prod.fst).Nodup) : ((delAssoc l k).map Prod.fst).Nodup :=
  h.sublist (keys_delAssoc_sublist l k)

theorem keys_updAssoc {β : Type} (l : List (String × β)) (k : String) (f : β → β) :
    (updAssoc l k f).map Prod.fst = l.map Prod.fst := by
  induction l with
  | nil => simp [updAssoc]
  | cons hd tl ih =>
      by_cases h : hd.1 = k
      · simp [updAssoc, h, ih]
      · simp [updAssoc, h, ih]

/-! ### Trace lemmas about the operation log -/

theorem runEvents_append (st : ServerState) (l1 l2 : List Event) :
    runEvents st (l1 ++ l2) = runEvents (runEvents st l1) l2 := by
  induction l1 generalizing st with
  | nil => simp [runEvents]
  | cons e rest ih => simp [runEvents, ih]

theorem stepEvent_ops (st : ServerState) (e : Event) (h : isClearEvent e = false) :
    (stepEvent st e).currentOperations = st.currentOperations ++ eventOps e := by
  cases e with
  | connect c => simp [stepEvent, handleConnection, eventOps]
  | close c =>
      simp only [stepEvent, handleClose, eventOps]
      cases getAssoc (st.connections.filter (fun c' => decide (c'.connId ≠ c))
          |> fun _ => st.connectionIdToPersistentUser) c with
      | none => simp
      | some uid => simp
  | message c n m =>
      cases m with
      | clientConnectInfo pid nm col => simp [stepEvent, handleMessage, eventOps]
      | userLeave uid => simp [stepEvent, handleMessage, eventOps]
      | drawingOperation uid o => simp [stepEvent, handleMessage, eventOps]
      | cursorMove uid cur => simp [stepEvent, handleMessage, eventOps]
      | heartbeat uid => simp [stepEvent, handleMessage, eventOps]
      | clearCanvas => simp [isClearEvent] at h

theorem runEvents_ops_noClear (st : ServerState) (evs : List Event)
    (h : noClear evs = true) :
    (runEvents st evs).currentOperations = st.currentOperations ++ drawOpsOf evs := by
  induction evs generalizing st with
  | nil => simp [runEvents, drawOpsOf]
  | cons e rest ih =>
      simp only [noClear, List.all_cons, Bool.and_eq_true, Bool.not_eq_true'] at h
      have h1 : isClearEvent e = false := h.1
      have h2 : noClear rest = true := by simpa [noClear] using h.2
      simp only [runEvents]
      rw [ih _ h2, stepEvent_ops st e h1]
      simp [drawOpsOf, List.append_assoc]

/-! ### Concrete data for counterexamples and witnesses -/

/-- A sample stroke operation. -/
def sampleOp : Operation := { id := "op1", payload := "stroke-a" }

/-- A second sample stroke operation. -/
def sampleOpB : Operation := { id := "op2", payload := "stroke-b" }

/-- Events leading to a state with one handshaken session c1 and a
second session c2 that has connected but not yet sent its handshake. -/
def preHandshakeTrace : List Event :=
  [Event.connect "c1",
   Event.message "c1" 0 (ClientMsg.clientConnectInfo "u1" "Alice" "red"),
   Event.connect "c2"]

/-- Events giving participant u1 two concurrently open sessions. -/
def twoSessionTrace : List Event :=
  [Event.connect "c1",
   Event.message "c1" 0 (ClientMsg.clientConnectInfo "u1" "Alice" "red"),
   Event.connect "c2",
   Event.message "c2" 1 (ClientMsg.clientConnectInfo "u1" "Alice" "red")]

/-- A server state with a single fresh, not yet handshaken client. -/
def singleConnState : ServerState :=
  runEvents initialServerState [Event.connect "c1"]

/-- A client state with one operation already applied and version 1. -/
def clientBefore : ClientState :=
  { nodeId := "n1", users := [], operations := [sampleOp],
    currentVersion := 1, lastUpdate := 0, connectedNodes := [] }

/-! ### Claim theorems -/

/-- Claim C1, counterexample: on the in-memory server, submitting the
same operation (same id "op1") twice is not a no-op — the second
drawing_operation message pushes a second copy, so the log, and hence
every subsequent snapshot, holds two entries with id "op1". -/
theorem duplicate_append_two_entries :
    ((handleMessage
        (handleMessage initialServerState "c1" 0 (ClientMsg.drawingOperation "u1" sampleOp)).1
        "c1" 1 (ClientMsg.drawingOperation "u1" sampleOp)).1.currentOperations.countP
      (fun o => o.id == "op1")) = 2 ∧
    (handleMessage
        (handleMessage initialServerState "c1" 0 (ClientMsg.drawingOperation "u1" sampleOp)).1
        "c1" 1 (ClientMsg.drawingOperation "u1" sampleOp)).1
      ≠ (handleMessage initialServerState "c1" 0 (ClientMsg.drawingOperation "u1" sampleOp)).1 := by
  decide

/-- Claim C1, amended: the drawing_operation handler performs no
deduplication — it unconditionally appends the operation to the end of
the log, so re-submitting an id raises that id's entry count by one
(two submissions yield two entries in every subsequent snapshot). -/
theorem drawing_operation_always_appends (st : ServerState) (c uid : String) (now : Nat)
    (o : Operation) :
    (handleMessage st c now (ClientMsg.drawingOperation uid o)).1.currentOperations
        = st.currentOperations ++ [o] ∧
    ((handleMessage st c now (ClientMsg.drawingOperation uid o)).1.currentOperations.countP
        (fun x => x.id == o.id))
        = st.currentOperations.countP (fun x => x.id == o.id) + 1 := by
  refine ⟨rfl, ?_⟩
  simp [handleMessage, List.countP_append, List.countP_cons]

/-- Claim C2, counterexample: session c2 has connected but never
handshaken (its connection id is bound to no participant), yet the
broadcast of a drawing_operation is delivered to it — before it has
received any base snapshot. -/
theorem unbound_session_receives_broadcast :
    ("c2", ServerMsg.drawingOperation sampleOp) ∈
        (handleMessage (runEvents initialServerState preHandshakeTrace) "c1" 3
          (ClientMsg.drawingOperation "u1" sampleOp)).2 ∧
    (runEvents initialServerState preHandshakeTrace).connections.any
        (fun k => k.connId == "c2" && k.persistentUserId == none) = true ∧
    getAssoc (runEvents initialServerState preHandshakeTrace).connectionIdToPersistentUser "c2"
        = none := by
  decide

/-- Claim C2, amended: broadcastToAll delivers every event to every
open connection, whether or not its participant binding is complete;
what does hold is that the full snapshot is the first message produced
while processing a session's handshake. -/
theorem broadcast_targets_all_open_connections (st : ServerState) (c uid pid nm col : String)
    (now m : Nat) (o : Operation) :
    (handleMessage st c now (ClientMsg.drawingOperation uid o)).2
        = st.connections.map (fun k => (k.connId, ServerMsg.drawingOperation o)) ∧
    ∃ us ops,
      ((handleMessage st c m (ClientMsg.clientConnectInfo pid nm col)).2).head?
        = some (c, ServerMsg.stateSync us ops) := by
  exact ⟨rfl, _, _, rfl⟩

/-- Claim C4, counterexample: a handshake carrying the empty
participant id is accepted — the connection is not closed, the empty
string is bound as the session's participant, and a presence entry
keyed by the empty string is created. -/
theorem empty_participant_id_accepted :
    (getAssoc (handleMessage singleConnState "c1" 0
        (ClientMsg.clientConnectInfo "" "Bob" "blue")).1.activeUsers "").isSome = true ∧
    (handleMessage singleConnState "c1" 0
        (ClientMsg.clientConnectInfo "" "Bob" "blue")).1.connections
      = [{ connId := "c1", persistentUserId := some "" }] := by
  decide

/-- Claim C4, amended: the client_connect_info handler performs no
validation of the participant id whatsoever — for every id, including
the empty string, it creates the presence entry and identity binding
and leaves the set of open connections unchanged. -/
theorem handshake_accepts_any_participant_id (st : ServerState) (c pid nm col : String)
    (now : Nat) :
    getAssoc (handleMessage st c now (ClientMsg.clientConnectInfo pid nm col)).1.activeUsers pid
      = some { id := pid, name := nm, color := col, isActive := true,
               lastSeen := now, cursor := none, connectionId := c } ∧
    getAssoc
        (handleMessage st c now (ClientMsg.clientConnectInfo pid nm col)).1.connectionIdToPersistentUser
        c = some pid ∧
    ((handleMessage st c now (ClientMsg.clientConnectInfo pid nm col)).1.connections.map Conn.connId)
      = st.connections.map Conn.connId := by
  refine ⟨getAssoc_setAssoc_self _ _ _, getAssoc_setAssoc_self _ _ _, ?_⟩
  show (st.connections.map (fun k => if k.connId = c then { k with persistentUserId := some pid } else k)).map Conn.connId = st.connections.map Conn.connId
  rw [List.map_map]
  refine List.map_congr_left (fun k _ => ?_)
  by_cases h : k.connId = c <;> simp [h]

/-- Claim C7, counterexample: a state_sync message changes the client
version without any accepted operation or clear — the hook assigns
syncedState.currentVersion or 0, and the server's state_sync carries
no version, so a client at version 1 drops to version 0. -/
theorem version_changed_by_state_sync :
    (handleWebSocketMessage clientBefore 5 (ServerMsg.stateSync [] [])).currentVersion = 0 ∧
    clientBefore.currentVersion = 1 := by
  decide

/-- Claim C7, amended: the client version counter increments by exactly
one per drawing_operation and per clear_canvas event, is untouched by
connection, user_join, user_leave, cursor_move and active_users_update
events, and is overwritten (to the snapshot's version, which the
server always omits, hence 0) by state_sync.  In the spec scenario,
one broadcast operation increments B's version by exactly 1. -/
theorem client_version_increment_rules (st : ClientState) (now : Nat) (cid uid : String)
    (u : SUser) (o : Operation) (cur : Point) (ids : List String)
    (us : List SUser) (ops : List Operation) :
    (handleWebSocketMessage st now (ServerMsg.drawingOperation o)).currentVersion
        = st.currentVersion + 1 ∧
    (handleWebSocketMessage st now ServerMsg.clearCanvas).currentVersion
        = st.currentVersion + 1 ∧
    (handleWebSocketMessage st now (ServerMsg.connection cid)).currentVersion
        = st.currentVersion ∧
    (handleWebSocketMessage st now (ServerMsg.userJoin u)).currentVersion
        = st.currentVersion ∧
    (handleWebSocketMessage st now (ServerMsg.userLeave uid)).currentVersion
        = st.currentVersion ∧
    (handleWebSocketMessage st now (ServerMsg.cursorMove uid cur)).currentVersion
        = st.currentVersion ∧
    (handleWebSocketMessage st now (ServerMsg.activeUsersUpdate ids)).currentVersion
        = st.currentVersion ∧
    (handleWebSocketMessage st now (ServerMsg.stateSync us ops)).currentVersion = 0 := by
  exact ⟨rfl, rfl, rfl, rfl, rfl, rfl, rfl, rfl⟩

/-- The reconnect counter after k failures equals min k 3: it never
exceeds the attempt ceiling. -/
theorem reconnectAttemptsAfter_eq_min (k : Nat) :
    reconnectAttemptsAfter k = min k MAX_RECONNECT_ATTEMPTS := by
  induction k with
  | zero => simp [reconnectAttemptsAfter]
  | succ n ih =>
      rw [reconnectAttemptsAfter, ih]
      simp only [initiateReconnect, MAX_RECONNECT_ATTEMPTS]
      rw [if_neg (by simp : ¬(false = true))]
      by_cases h : min n 3 < 3
      · rw [if_pos h]
        show min n 3 + 1 = min (n + 1) 3
        omega
      · rw [if_neg h]
        show min n 3 = min (n + 1) 3
        omega

/-- Claim C8: the reconnect loop is bounded — the attempt counter
never exceeds MAX_RECONNECT_ATTEMPTS (3); once the ceiling is reached
every further failure surfaces the terminal disconnected status and
schedules no retry; and every retry that is scheduled uses the fixed
delay RECONNECT_DELAY (3000 ms).  The client never retries forever. -/
theorem reconnect_attempts_bounded (k : Nat) :
    reconnectAttemptsAfter k = min k MAX_RECONNECT_ATTEMPTS ∧
    initiateReconnect false (reconnectAttemptsAfter (MAX_RECONNECT_ATTEMPTS + k))
      = (MAX_RECONNECT_ATTEMPTS, none, true) ∧
    initiateReconnect false (min k (MAX_RECONNECT_ATTEMPTS - 1))
      = (min k (MAX_RECONNECT_ATTEMPTS - 1) + 1, some RECONNECT_DELAY, false) := by
  refine ⟨reconnectAttemptsAfter_eq_min k, ?_, ?_⟩
  · rw [reconnectAttemptsAfter_eq_min]
    have hmin : min (MAX_RECONNECT_ATTEMPTS + k) MAX_RECONNECT_ATTEMPTS
        = MAX_RECONNECT_ATTEMPTS := by
      simp only [MAX_RECONNECT_ATTEMPTS]
      omega
    rw [hmin]
    simp [initiateReconnect]
  · have h : min k (MAX_RECONNECT_ATTEMPTS - 1) < MAX_RECONNECT_ATTEMPTS := by
      simp only [MAX_RECONNECT_ATTEMPTS]
      omega
    simp [initiateReconnect, h]

/-- Unfolding one event of a run. -/
theorem runEvents_cons (st : ServerState) (e : Event) (l : List Event) :
    runEvents st (e :: l) = runEvents (stepEvent st e) l := rfl

/-- Element lookup at the length of the left part of an append. -/
theorem getElem_append_len {α : Type} (l1 l2 : List α) (a : α) :
    (l1 ++ a :: l2)[l1.length]? = some a := by
  induction l1 with
  | nil => simp
  | cons x xs ih => simpa using ih

/-- Claim C3, counterexample: participant u1 holds two open sessions
c1 and c2; closing c1 alone deletes u1 from the presence registry
(u1 is reported absent) and broadcasts a user_leave for u1 to the
still-open session c2 — the claim said u1 would remain present. -/
theorem close_one_of_two_sessions_removes_presence :
    getAssoc (handleClose (runEvents initialServerState twoSessionTrace) "c1").1.activeUsers "u1"
      = none ∧
    (handleClose (runEvents initialServerState twoSessionTrace) "c1").1.connections.any
      (fun k => k.connId == "c2" && k.persistentUserId == some "u1") = true ∧
    ("c2", ServerMsg.userLeave "u1") ∈
      (handleClose (runEvents initialServerState twoSessionTrace) "c1").2 := by
  decide

/-- Claim C3, amended: the close handler does no per-participant
reference counting — whenever the closing connection is bound to a
participant, that participant is removed from the presence registry
and one user_leave broadcast is emitted to every remaining connection,
even if other sessions of the same participant are still open. -/
theorem close_always_removes_participant (st : ServerState) (c pid : String)
    (h : getAssoc st.connectionIdToPersistentUser c = some pid) :
    getAssoc (handleClose st c).1.activeUsers pid = none ∧
    getAssoc (handleClose st c).1.connectionIdToPersistentUser c = none ∧
    ∃ ids,
      (handleClose st c).2
        = (st.connections.filter (fun k => k.connId ≠ c)).map
            (fun k => (k.connId, ServerMsg.userLeave pid))
          ++ (st.connections.filter (fun k => k.connId ≠ c)).map
            (fun k => (k.connId, ServerMsg.activeUsersUpdate ids)) := by
  have hs : getAssoc
      ({ st with connections := st.connections.filter (fun k => k.connId ≠ c) } :
        ServerState).connectionIdToPersistentUser c = some pid := h
  simp only [handleClose, hs]
  exact ⟨getAssoc_delAssoc_self _ _, getAssoc_delAssoc_self _ _, _, rfl⟩

/-- Witness for close_always_removes_participant at the two-session
trace: c1 is bound to u1 and the conclusion holds there. -/
theorem close_always_removes_participant_witness :
    getAssoc (runEvents initialServerState twoSessionTrace).connectionIdToPersistentUser "c1"
        = some "u1" ∧
    (getAssoc (handleClose (runEvents initialServerState twoSessionTrace) "c1").1.activeUsers "u1"
        = none ∧
     getAssoc
        (handleClose (runEvents initialServerState twoSessionTrace) "c1").1.connectionIdToPersistentUser
        "c1" = none ∧
     ∃ ids,
       (handleClose (runEvents initialServerState twoSessionTrace) "c1").2
         = ((runEvents initialServerState twoSessionTrace).connections.filter
              (fun k => k.connId ≠ "c1")).map
             (fun k => (k.connId, ServerMsg.userLeave "u1"))
           ++ ((runEvents initialServerState twoSessionTrace).connections.filter
              (fun k => k.connId ≠ "c1")).map
             (fun k => (k.connId, ServerMsg.activeUsersUpdate ids))) :=
  ⟨by decide,
   close_always_removes_participant (runEvents initialServerState twoSessionTrace) "c1" "u1"
     (by decide)⟩

/-- Claim C5: after a clear_canvas, the log — and hence the state_sync
snapshot a freshly handshaking client receives — consists exactly of
the operations appended after the most recent clear; no operation
predating the clear survives. -/
theorem snapshot_after_clear_only_new_operations (st : ServerState)
    (evs1 evs2 : List Event) (c cid pid nm col : String) (n m : Nat)
    (h : noClear evs2 = true) :
    (runEvents st (evs1 ++ Event.message c n ClientMsg.clearCanvas :: evs2)).currentOperations
      = drawOpsOf evs2 ∧
    ∃ us,
      ((handleMessage (runEvents st (evs1 ++ Event.message c n ClientMsg.clearCanvas :: evs2))
          cid m (ClientMsg.clientConnectInfo pid nm col)).2).head?
        = some (cid, ServerMsg.stateSync us (drawOpsOf evs2)) := by
  have hops : (runEvents st
      (evs1 ++ Event.message c n ClientMsg.clearCanvas :: evs2)).currentOperations
      = drawOpsOf evs2 := by
    rw [runEvents_append, runEvents_cons, runEvents_ops_noClear _ _ h]
    simp [stepEvent, handleMessage]
  refine ⟨hops, ?_⟩
  rw [← hops]
  exact ⟨_, rfl⟩

/-- Witness trace for the clear claim: one pre-clear operation, a
clear, then one post-clear operation. -/
def clearWitnessTail : List Event :=
  [Event.message "c1" 5 (ClientMsg.drawingOperation "u1" sampleOp)]

/-- Witness for snapshot_after_clear_only_new_operations on a concrete
trace with one operation before and one after the clear. -/
theorem snapshot_after_clear_only_new_operations_witness :
    noClear clearWitnessTail = true ∧
    ((runEvents initialServerState
        ([Event.connect "c1", Event.message "c1" 0 (ClientMsg.drawingOperation "u1" sampleOpB)]
          ++ Event.message "c1" 2 ClientMsg.clearCanvas :: clearWitnessTail)).currentOperations
      = drawOpsOf clearWitnessTail ∧
     ∃ us,
       ((handleMessage (runEvents initialServerState
            ([Event.connect "c1", Event.message "c1" 0 (ClientMsg.drawingOperation "u1" sampleOpB)]
              ++ Event.message "c1" 2 ClientMsg.clearCanvas :: clearWitnessTail))
           "c2" 9 (ClientMsg.clientConnectInfo "u2" "Nina" "green")).2).head?
         = some ("c2", ServerMsg.stateSync us (drawOpsOf clearWitnessTail))) :=
  ⟨by decide,
   snapshot_after_clear_only_new_operations initialServerState
     [Event.connect "c1", Event.message "c1" 0 (ClientMsg.drawingOperation "u1" sampleOpB)]
     clearWitnessTail "c1" "c2" "u2" "Nina" "green" 2 9 (by decide)⟩

/-- Claim C6: operations accepted earlier sit at strictly smaller log
positions — for operations A then B accepted in that order with no
intervening or later clear, the snapshot lists A at index i and B at
index j with i < j; the log order is the acceptance order. -/
theorem snapshot_preserves_acceptance_order (st : ServerState) (p q r : List Event)
    (cA cB uA uB : String) (nA nB : Nat) (A B : Operation)
    (hq : noClear q = true) (hr : noClear r = true) :
    ∃ i j : Nat, i < j ∧
      ((runEvents st (p ++ Event.message cA nA (ClientMsg.drawingOperation uA A)
          :: (q ++ Event.message cB nB (ClientMsg.drawingOperation uB B) :: r))).currentOperations)[i]?
        = some A ∧
      ((runEvents st (p ++ Event.message cA nA (ClientMsg.drawingOperation uA A)
          :: (q ++ Event.message cB nB (ClientMsg.drawingOperation uB B) :: r))).currentOperations)[j]?
        = some B := by
  have hops : (runEvents st (p ++ Event.message cA nA (ClientMsg.drawingOperation uA A)
      :: (q ++ Event.message cB nB (ClientMsg.drawingOperation uB B) :: r))).currentOperations
      = (runEvents st p).currentOperations
          ++ (A :: (drawOpsOf q ++ (B :: drawOpsOf r))) := by
    rw [runEvents_append, runEvents_cons, runEvents_append, runEvents_cons,
        runEvents_ops_noClear _ _ hr,
        stepEvent_ops _ _ (by rfl),
        runEvents_ops_noClear _ _ hq,
        stepEvent_ops _ _ (by rfl)]
    simp [eventOps, List.append_assoc]
  refine ⟨(runEvents st p).currentOperations.length,
          (runEvents st p).currentOperations.length + 1 + (drawOpsOf q).length,
          by omega, ?_, ?_⟩
  · rw [hops]
    exact getElem_append_len _ _ _
  · rw [hops]
    have hsplit : (runEvents st p).currentOperations
          ++ (A :: (drawOpsOf q ++ (B :: drawOpsOf r)))
        = ((runEvents st p).currentOperations ++ (A :: drawOpsOf q)) ++ (B :: drawOpsOf r) := by
      simp [List.append_assoc]
    have hlen : ((runEvents st p).currentOperations ++ (A :: drawOpsOf q)).length
        = (runEvents st p).currentOperations.length + 1 + (drawOpsOf q).length := by
      simp [List.length_append]
      omega
    rw [hsplit, ← hlen]
    exact getElem_append_len _ _ _

/-- Witness for snapshot_preserves_acceptance_order on a concrete
trace: two operations submitted by different sessions in order. -/
theorem snapshot_preserves_acceptance_order_witness :
    noClear ([] : List Event) = true ∧
    (∃ i j : Nat, i < j ∧
      ((runEvents initialServerState
          (preHandshakeTrace ++ Event.message "c1" 3 (ClientMsg.drawingOperation "u1" sampleOp)
            :: ([] ++ Event.message "c2" 4 (ClientMsg.drawingOperation "u2" sampleOpB)
              :: ([] : List Event)))).currentOperations)[i]?
        = some sampleOp ∧
      ((runEvents initialServerState
          (preHandshakeTrace ++ Event.message "c1" 3 (ClientMsg.drawingOperation "u1" sampleOp)
            :: ([] ++ Event.message "c2" 4 (ClientMsg.drawingOperation "u2" sampleOpB)
              :: ([] : List Event)))).currentOperations)[j]?
        = some sampleOpB) :=
  ⟨by decide,
   snapshot_preserves_acceptance_order initialServerState preHandshakeTrace [] []
     "c1" "c2" "u1" "u2" 3 4 sampleOp sampleOpB (by decide) (by decide)⟩

/-- Every single server step preserves distinctness of the presence
registry's keys. -/
theorem step_preserves_nodup_keys (st : ServerState) (e : Event)
    (h : (st.activeUsers.map Prod.fst).Nodup) :
    ((stepEvent st e).activeUsers.map Prod.fst).Nodup := by
  cases e with
  | connect c => exact h
  | close c =>
      simp only [stepEvent, handleClose]
      split
      · exact nodup_keys_delAssoc _ _ h
      · exact h
  | message c n m =>
      cases m with
      | clientConnectInfo pid nm col => exact nodup_keys_setAssoc _ _ _ h
      | userLeave uid => exact nodup_keys_delAssoc _ _ h
      | drawingOperation uid o => exact h
      | cursorMove uid cur =>
          simp only [stepEvent, handleMessage]
          split
          · rw [keys_updAssoc]
            exact h
          · exact h
      | heartbeat uid =>
          simp only [stepEvent, handleMessage]
          split
          · rw [keys_updAssoc]
            exact h
          · exact h
      | clearCanvas => exact h

/-- Claim C9: in every state reachable from server start the presence
registry has pairwise distinct participant ids (at most one entry per
participantId), and a handshake for an already-present participantId
replaces that participant's entry with the new session's name, color
and connectionId (most-recent-session-wins) while every other
participant's entry is untouched. -/
theorem presence_registry_keyed_uniquely (evs : List Event) (st : ServerState)
    (c pid nm col : String) (now : Nat) :
    ((runEvents initialServerState evs).activeUsers.map Prod.fst).Nodup ∧
    getAssoc (handleMessage st c now (ClientMsg.clientConnectInfo pid nm col)).1.activeUsers pid
      = some { id := pid, name := nm, color := col, isActive := true,
               lastSeen := now, cursor := none, connectionId := c } ∧
    ∀ q, q ≠ pid →
      getAssoc (handleMessage st c now (ClientMsg.clientConnectInfo pid nm col)).1.activeUsers q
        = getAssoc st.activeUsers q := by
  refine ⟨?_, getAssoc_setAssoc_self _ _ _, fun q hq => getAssoc_setAssoc_ne _ _ _ _ hq⟩
  have hrun : ∀ (l : List Event) (st0 : ServerState),
      (st0.activeUsers.map Prod.fst).Nodup →
      ((runEvents st0 l).activeUsers.map Prod.fst).Nodup := by
    intro l
    induction l with
    | nil => intro st0 h0; exact h0
    | cons e rest ih => intro st0 h0; exact ih _ (step_preserves_nodup_keys st0 e h0)
  exact hrun evs initialServerState (by simp [initialServerState])

/-- Witness for presence_registry_keyed_uniquely: a replacement
handshake for u1 at the two-session state, checked for the untouched
participant u2. -/
theorem presence_registry_keyed_uniquely_witness :
    ("u2" : String) ≠ "u1" ∧
    getAssoc (handleMessage (runEvents initialServerState twoSessionTrace) "c3" 7
        (ClientMsg.clientConnectInfo "u1" "Alicia" "cyan")).1.activeUsers "u2"
      = getAssoc (runEvents initialServerState twoSessionTrace).activeUsers "u2" :=
  ⟨by decide,
   (presence_registry_keyed_uniquely twoSessionTrace
      (runEvents initialServerState twoSessionTrace) "c3" "u1" "Alicia" "cyan" 7).2.2
     "u2" (by decide)⟩

/-- Claim C10: cursor_move and heartbeat never touch the operation
log, the connection set or the identity map; they change at most the
named participant's cursor, lastSeen and isActive fields (all other
fields and all other participants are untouched); when the named
userId is absent from the registry, the registry is left entirely
unchanged; and the cursor_move is still broadcast to every client
while heartbeat sends nothing. -/
theorem cursor_heartbeat_frame_conditions (st : ServerState) (c uid : String)
    (now : Nat) (cur : Point) :
    (handleMessage st c now (ClientMsg.cursorMove uid cur)).1.currentOperations
        = st.currentOperations ∧
    (handleMessage st c now (ClientMsg.heartbeat uid)).1.currentOperations
        = st.currentOperations ∧
    (handleMessage st c now (ClientMsg.cursorMove uid cur)).1.connections = st.connections ∧
    (handleMessage st c now (ClientMsg.heartbeat uid)).1.connections = st.connections ∧
    (handleMessage st c now (ClientMsg.cursorMove uid cur)).1.connectionIdToPersistentUser
        = st.connectionIdToPersistentUser ∧
    (handleMessage st c now (ClientMsg.heartbeat uid)).1.connectionIdToPersistentUser
        = st.connectionIdToPersistentUser ∧
    (∀ q, q ≠ uid →
      getAssoc (handleMessage st c now (ClientMsg.cursorMove uid cur)).1.activeUsers q
        = getAssoc st.activeUsers q) ∧
    (∀ q, q ≠ uid →
      getAssoc (handleMessage st c now (ClientMsg.heartbeat uid)).1.activeUsers q
        = getAssoc st.activeUsers q) ∧
    (∀ u', getAssoc (handleMessage st c now (ClientMsg.cursorMove uid cur)).1.activeUsers uid
        = some u' →
      ∃ u, getAssoc st.activeUsers uid = some u ∧
        u'.id = u.id ∧ u'.name = u.name ∧ u'.color = u.color ∧
        u'.connectionId = u.connectionId ∧ u'.isActive = u.isActive) ∧
    (∀ u', getAssoc (handleMessage st c now (ClientMsg.heartbeat uid)).1.activeUsers uid
        = some u' →
      ∃ u, getAssoc st.activeUsers uid = some u ∧
        u'.id = u.id ∧ u'.name = u.name ∧ u'.color = u.color ∧
        u'.connectionId = u.connectionId ∧ u'.cursor = u.cursor) ∧
    (getAssoc st.activeUsers uid = none →
      (handleMessage st c now (ClientMsg.cursorMove uid cur)).1.activeUsers = st.activeUsers ∧
      (handleMessage st c now (ClientMsg.heartbeat uid)).1.activeUsers = st.activeUsers) ∧
    (handleMessage st c now (ClientMsg.cursorMove uid cur)).2
        = st.connections.map (fun k => (k.connId, ServerMsg.cursorMove uid cur)) ∧
    (handleMessage st c now (ClientMsg.heartbeat uid)).2 = [] := by
  have hc : (handleMessage st c now (ClientMsg.cursorMove uid cur)).1.activeUsers
      = if (getAssoc st.activeUsers uid).isSome then
          updAssoc st.activeUsers uid (fun u => { u with cursor := some cur, lastSeen := now })
        else st.activeUsers := rfl
  have hh : (handleMessage st c now (ClientMsg.heartbeat uid)).1.activeUsers
      = if (getAssoc st.activeUsers uid).isSome then
          updAssoc st.activeUsers uid (fun u => { u with lastSeen := now, isActive := true })
        else st.activeUsers := rfl
  refine ⟨rfl, rfl, rfl, rfl, rfl, rfl, ?_, ?_, ?_, ?_, ?_, rfl, rfl⟩
  · intro q hq
    rw [hc]
    cases hcase : getAssoc st.activeUsers uid with
    | none => simp
    | some u => simp [getAssoc_updAssoc_ne _ _ _ _ hq]
  · intro q hq
    rw [hh]
    cases hcase : getAssoc st.activeUsers uid with
    | none => simp
    | some u => simp [getAssoc_updAssoc_ne _ _ _ _ hq]
  · intro u' hu'
    rw [hc] at hu'
    cases hcase : getAssoc st.activeUsers uid with
    | none => simp [hcase] at hu'
    | some u =>
        simp [hcase, getAssoc_updAssoc_self] at hu'
        refine ⟨u, rfl, ?_⟩
        subst hu'
        exact ⟨rfl, rfl, rfl, rfl, rfl⟩
  · intro u' hu'
    rw [hh] at hu'
    cases hcase : getAssoc st.activeUsers uid with
    | none => simp [hcase] at hu'
    | some u =>
        simp [hcase, getAssoc_updAssoc_self] at hu'
        refine ⟨u, rfl, ?_⟩
        subst hu'
        exact ⟨rfl, rfl, rfl, rfl, rfl⟩
  · intro hnone
    rw [hc, hh]
    simp [hnone]

/-- Witness for cursor_heartbeat_frame_conditions at the two-session
state: the log is untouched by a cursor_move. -/
theorem cursor_heartbeat_frame_conditions_witness :
    getAssoc (runEvents initialServerState twoSessionTrace).activeUsers "nobody" = none ∧
    ((handleMessage (runEvents initialServerState twoSessionTrace) "c1" 9
        (ClientMsg.cursorMove "nobody" { x := 1, y := 2 })).1.activeUsers
      = (runEvents initialServerState twoSessionTrace).activeUsers ∧
     (handleMessage (runEvents initialServerState twoSessionTrace) "c1" 9
        (ClientMsg.heartbeat "nobody")).1.activeUsers
      = (runEvents initialServerState twoSessionTrace).activeUsers) :=
  ⟨by decide,
   (cursor_heartbeat_frame_conditions (runEvents initialServerState twoSessionTrace)
      "c1" "nobody" 9 { x := 1, y := 2 }).2.2.2.2.2.2.2.2.2.2.1 (by decide)⟩

end DrawingBoard
